import Mathlib

/-!
Verification of the market-implications derivation core (`src/metrics/calculations.py`
and `src/metrics/credit.py`) against its natural-language specification.

Modelling conventions, used throughout:
* Python/numpy finite floats are idealised as rationals (`ℚ`); the non-finite values
  that numpy division by zero can produce are modelled explicitly by `PFloat`.
* A raised Python exception is modelled as `Except.error` with the exception's kind
  (`PyErr`), since none of the embedded call paths catch exceptions.
* `datetime.now()` is modelled by an explicit `now : Date` argument.
* Python `round(x, n)` (round half to even on the decimal value) is `pyRound n x`.
-/

set_option maxHeartbeats 1000000
set_option maxRecDepth 8000

deriving instance DecidableEq for Except

/-- Kind of Python exception raised by an embedded computation. -/
inductive PyErr where
  | valueError
  | keyError
  | indexError
deriving DecidableEq, Repr

section Rounding

variable {α : Type} [LinearOrderedField α] [FloorRing α]

/-- Round half to even to the nearest integer, the rounding used by Python's
built-in `round` (idealised to exact arithmetic). -/
def rhe (x : α) : ℤ :=
  if x - (⌊x⌋ : α) < 1 / 2 then ⌊x⌋
  else if 1 / 2 < x - (⌊x⌋ : α) then ⌊x⌋ + 1
  else if ⌊x⌋ % 2 = 0 then ⌊x⌋ else ⌊x⌋ + 1

/-- Python `round(x, nd)` with `nd` decimal digits, on exact values. -/
def pyRound (nd : ℕ) (x : α) : α := ((rhe (x * 10 ^ nd) : α)) / 10 ^ nd

theorem rhe_le (x : α) : (rhe x : α) ≤ x + 1 / 2 := by
  have h0 : (⌊x⌋ : α) ≤ x := Int.floor_le x
  have h1 : x < (⌊x⌋ : α) + 1 := Int.lt_floor_add_one x
  unfold rhe
  split
  · linarith
  · split
    · push_cast; linarith
    · split
      · push_cast; linarith
      · push_cast; linarith

theorem le_rhe (x : α) : x - 1 / 2 ≤ (rhe x : α) := by
  have h0 : (⌊x⌋ : α) ≤ x := Int.floor_le x
  have h1 : x < (⌊x⌋ : α) + 1 := Int.lt_floor_add_one x
  unfold rhe
  split
  · linarith
  · split
    · push_cast; linarith
    · split
      · push_cast; linarith
      · push_cast; linarith

theorem rhe_mono {x y : α} (hxy : x ≤ y) : rhe x ≤ rhe y := by
  by_contra hlt
  push_neg at hlt
  have h1 : rhe y + 1 ≤ rhe x := hlt
  have h2 : y - 1 / 2 ≤ (rhe y : α) := le_rhe y
  have h3 : (rhe x : α) ≤ x + 1 / 2 := rhe_le x
  have h4 : ((rhe y : ℤ) : α) + 1 ≤ ((rhe x : ℤ) : α) := by exact_mod_cast h1
  have hyx : y ≤ x := by linarith
  have hxy2 : x = y := le_antisymm hxy hyx
  subst hxy2
  omega

theorem rhe_intCast (n : ℤ) : rhe ((n : α)) = n := by
  unfold rhe
  have h : ⌊(n : α)⌋ = n := Int.floor_intCast n
  simp [h]

theorem pyRound_mono (nd : ℕ) {x y : α} (hxy : x ≤ y) : pyRound nd x ≤ pyRound nd y := by
  unfold pyRound
  have hp : (0 : α) < 10 ^ nd := by positivity
  have h : rhe (x * 10 ^ nd) ≤ rhe (y * 10 ^ nd) :=
    rhe_mono (by exact mul_le_mul_of_nonneg_right hxy (le_of_lt hp))
  have h2 : ((rhe (x * 10 ^ nd) : ℤ) : α) ≤ ((rhe (y * 10 ^ nd) : ℤ) : α) := by exact_mod_cast h
  exact div_le_div_of_nonneg_right h2 hp.le

theorem pyRound_le (nd : ℕ) (x : α) : pyRound nd x ≤ x + 1 / (2 * 10 ^ nd) := by
  unfold pyRound
  have hp : (0 : α) < 10 ^ nd := by positivity
  have h := rhe_le (x * 10 ^ nd) (α := α)
  rw [div_le_iff hp] at *
  calc ((rhe (x * 10 ^ nd) : ℤ) : α) ≤ x * 10 ^ nd + 1 / 2 := h
    _ = (x + 1 / (2 * 10 ^ nd)) * 10 ^ nd := by field_simp; ring

theorem le_pyRound (nd : ℕ) (x : α) : x - 1 / (2 * 10 ^ nd) ≤ pyRound nd x := by
  unfold pyRound
  have hp : (0 : α) < 10 ^ nd := by positivity
  have h := le_rhe (x * 10 ^ nd) (α := α)
  rw [le_div_iff hp]
  calc (x - 1 / (2 * 10 ^ nd)) * 10 ^ nd = x * 10 ^ nd - 1 / 2 := by field_simp; ring
    _ ≤ ((rhe (x * 10 ^ nd) : ℤ) : α) := h

theorem pyRound_intCast (nd : ℕ) (n : ℤ) : pyRound nd ((n : α)) = (n : α) := by
  unfold pyRound
  have hp : (0 : α) ≠ 10 ^ nd := by positivity
  have h : (n : α) * 10 ^ nd = (((n * 10 ^ nd : ℤ)) : α) := by push_cast; ring
  rw [h, rhe_intCast]
  push_cast
  field_simp

theorem pyRound_zero (nd : ℕ) : pyRound nd ((0 : α)) = 0 := by
  have := pyRound_intCast nd (0 : ℤ) (α := α)
  simpa using this

end Rounding

section PyParsing

/-- Numeric value of a list of decimal digit characters. -/
def digitsVal (l : List Char) : ℕ := l.foldl (fun a c => 10 * a + (c.toNat - 48)) 0

/-- Optional exponent tail of a Python float literal (models the `e`/`E` suffix of
`float(str)`). -/
def parseExpTail (mant : ℚ) (cs : List Char) : Option ℚ :=
  match cs with
  | [] => some mant
  | e :: rest =>
    if e = ('e') ∨ e = ('E') then
      let sd : ℤ × List Char := match rest with
        | c :: rest2 => if c = ('+') then (1, rest2) else if c = ('-') then (-1, rest2) else (1, rest)
        | [] => (1, [])
      if sd.2 ≠ [] ∧ sd.2.all Char.isDigit then
        some (if sd.1 = 1 then mant * 10 ^ digitsVal sd.2 else mant / 10 ^ digitsVal sd.2)
      else none
    else none

/-- Mantissa (integer part, optional point, fraction part) of a Python float literal. -/
def parseMantissa (cs : List Char) : Option (ℚ × List Char) :=
  let ip := cs.takeWhile Char.isDigit
  let r1 := cs.dropWhile Char.isDigit
  match r1 with
  | ('.') :: r2 =>
    let fp := r2.takeWhile Char.isDigit
    let r3 := r2.dropWhile Char.isDigit
    if ip = [] ∧ fp = [] then none
    else some ((digitsVal ip : ℚ) + (digitsVal fp : ℚ) / 10 ^ fp.length, r3)
  | _ => if ip = [] then none else some ((digitsVal ip : ℚ), r1)

/-- Python `float(str)` on its sign/digits/point/exponent forms, idealised to exact
rationals; the `inf`/`nan` words and digit-group underscores are outside the model's
scope (no tenor label uses them). `none` models a raised `ValueError`. -/
def pyParseFloat (s : String) : Option ℚ :=
  let t0 := s.toList.dropWhile Char.isWhitespace
  let t := (t0.reverse.dropWhile Char.isWhitespace).reverse
  let su : ℚ × List Char := match t with
    | ('+') :: r => (1, r)
    | ('-') :: r => (-1, r)
    | _ => (1, t)
  match parseMantissa su.2 with
  | none => none
  | some mr => (parseExpTail mr.1 mr.2).map (fun v => su.1 * v)

/-- Python `int(str)`: optional sign and decimal digits; `none` models `ValueError`. -/
def pyParseInt (s : String) : Option ℤ :=
  let t0 := s.toList.dropWhile Char.isWhitespace
  let t := (t0.reverse.dropWhile Char.isWhitespace).reverse
  let su : ℤ × List Char := match t with
    | ('+') :: r => (1, r)
    | ('-') :: r => (-1, r)
    | _ => (1, t)
  if su.2 ≠ [] ∧ su.2.all Char.isDigit then some (su.1 * digitsVal su.2) else none

/-- `float(s)` as a fallible computation: a parse failure is a raised `ValueError`. -/
def pyFloat (s : String) : Except PyErr ℚ :=
  match pyParseFloat s with
  | some v => .ok v
  | none => .error .valueError

/-- `int(s)` as a fallible computation: a parse failure is a raised `ValueError`. -/
def pyInt (s : String) : Except PyErr ℤ :=
  match pyParseInt s with
  | some v => .ok v
  | none => .error .valueError

/-- Uppercase a string (ASCII, which covers every tenor label the code handles). -/
def strUpper (s : String) : String := String.map Char.toUpper s

/-- Python `c in s` for a single-character needle. -/
def hasCh (s : String) (c : Char) : Bool := s.toList.contains c

/-- Python `s.replace(c, "")` for a single-character needle. -/
def rmCh (s : String) (c : Char) : String := ⟨s.toList.filter (fun a => a ≠ c)⟩

/-- Does `l` start with `p`? Helper for the substring test. -/
def listStartsWith : List Char → List Char → Bool
  | [], _ => true
  | _ :: _, [] => false
  | p :: ps, c :: cs => p = c && listStartsWith ps cs

/-- Substring containment on character lists. -/
def listHasSub (needle : List Char) : List Char → Bool
  | [] => needle.isEmpty
  | c :: cs => listStartsWith needle (c :: cs) || listHasSub needle cs

/-- Python `needle in hay` / `str.contains` for a fixed literal needle. -/
def strContainsSub (hay needle : String) : Bool := listHasSub needle.toList hay.toList

end PyParsing

section Dates

/-- Calendar date (proleptic Gregorian), modelling `datetime.date`/`pd.Timestamp`
at midnight; the code only ever takes whole-day differences. -/
structure Date where
  year : ℤ
  month : ℤ
  day : ℤ
deriving DecidableEq, Repr

/-- Gregorian leap-year test. -/
def isLeap (y : ℤ) : Bool := (y % 4 == 0 && y % 100 != 0) || y % 400 == 0

/-- Number of days in a month. -/
def daysInMonth (y m : ℤ) : ℤ :=
  if m = 2 then (if isLeap y then 29 else 28)
  else if m = 4 ∨ m = 6 ∨ m = 9 ∨ m = 11 then 30 else 31

/-- Days in the months of a common year strictly before month `m`. -/
def cumDays (m : ℤ) : ℤ :=
  if m ≤ 1 then 0 else if m = 2 then 31 else if m = 3 then 59 else if m = 4 then 90
  else if m = 5 then 120 else if m = 6 then 151 else if m = 7 then 181 else if m = 8 then 212
  else if m = 9 then 243 else if m = 10 then 273 else if m = 11 then 304 else 334

/-- Day number of a date (days since the epoch of the proleptic Gregorian calendar),
used only through differences, exactly as the code only uses `(a - b).days`. -/
def toOrdinal (d : Date) : ℤ :=
  365 * (d.year - 1) + (d.year - 1).fdiv 4 - (d.year - 1).fdiv 100 + (d.year - 1).fdiv 400
    + cumDays d.month + (if 2 < d.month ∧ isLeap d.year then 1 else 0) + d.day

/-- `(a - b).days` on two midnight datetimes. -/
def dateDiffDays (a b : Date) : ℤ := toOrdinal a - toOrdinal b

/-- `date + pd.DateOffset(months=n)`: shift by calendar months, clamping the day of
month to the target month's length. -/
def addMonths (d : Date) (n : ℤ) : Date :=
  let t := d.year * 12 + (d.month - 1) + n
  let y := t.fdiv 12
  let m := t.emod 12 + 1
  ⟨y, m, min d.day (daysInMonth y m)⟩

/-- `date + pd.DateOffset(years=n)`: shift by calendar years, clamping Feb 29. -/
def addYears (d : Date) (n : ℤ) : Date :=
  let y := d.year + n
  ⟨y, d.month, min d.day (daysInMonth y d.month)⟩

/-- One numeric field of a strptime-style date string: nonempty, all digits, at most
`maxLen` digits. -/
def parseDatePart (maxLen : ℕ) (s : String) : Option ℤ :=
  if s.length = 0 ∨ maxLen < s.length ∨ ¬ s.toList.all Char.isDigit then none
  else some ((digitsVal s.toList : ℕ) : ℤ)

/-- Validity check shared by all the date parsers: `datetime` accepts years 1..9999
and rejects out-of-range months and days with `ValueError`. -/
def mkValidDate (y m d : ℤ) : Option Date :=
  if 1 ≤ y ∧ y ≤ 9999 ∧ 1 ≤ m ∧ m ≤ 12 ∧ 1 ≤ d ∧ d ≤ daysInMonth y m then some ⟨y, m, d⟩
  else none

/-- `datetime.strptime(s, fmt)` for a three-part numeric date format with separator
`sep` (`%Y-%m-%d` or `%Y/%m/%d`); `none` models the raised `ValueError`. -/
def pyStrptime3 (sep : String) (s : String) : Option Date :=
  match s.splitOn sep with
  | [ys, ms, ds] =>
    match parseDatePart 4 ys, parseDatePart 2 ms, parseDatePart 2 ds with
    | some y, some m, some d => mkValidDate y m d
    | _, _, _ => none
  | _ => none

end Dates

section PFloatDef

/-- A numpy double: a finite value (idealised to `ℚ`) or one of the non-finite
values that the code's unchecked division can produce. -/
inductive PFloat where
  | fin (q : ℚ)
  | inf
  | ninf
  | nan
deriving DecidableEq, Repr

/-- numpy float division `num / den` for finite operands: division by (positive)
zero yields `inf`/`-inf`/`nan` with only a RuntimeWarning, never an exception. -/
def pfDiv (num den : ℚ) : PFloat :=
  if den = 0 then (if 0 < num then .inf else if num < 0 then .ninf else .nan)
  else .fin (num / den)

/-- `p - c` for a finite `c`. -/
def PFloat.subC : PFloat → ℚ → PFloat
  | .fin a, c => .fin (a - c)
  | .inf, _ => .inf
  | .ninf, _ => .ninf
  | .nan, _ => .nan

/-- `p / c` for a finite positive `c` (the code divides by the literal `0.25`). -/
def PFloat.divPosC : PFloat → ℚ → PFloat
  | .fin a, c => .fin (a / c)
  | .inf, _ => .inf
  | .ninf, _ => .ninf
  | .nan, _ => .nan

/-- `p * c` for a finite positive `c` (the code multiplies by the literal `100`). -/
def PFloat.mulPosC : PFloat → ℚ → PFloat
  | .fin a, c => .fin (a * c)
  | .inf, _ => .inf
  | .ninf, _ => .ninf
  | .nan, _ => .nan

/-- Python `abs`. -/
def PFloat.absF : PFloat → PFloat
  | .fin a => .fin |a|
  | .inf => .inf
  | .ninf => .inf
  | .nan => .nan

/-- Python `p > 0` (false for `nan`). -/
def PFloat.gtZero : PFloat → Bool
  | .fin a => decide (0 < a)
  | .inf => true
  | .ninf => false
  | .nan => false

/-- Python `p < 0` (false for `nan`). -/
def PFloat.ltZero : PFloat → Bool
  | .fin a => decide (a < 0)
  | .inf => false
  | .ninf => true
  | .nan => false

/-- Python `c < p` (false when `p` is `nan`), as used by `min`. -/
def PFloat.qLt (c : ℚ) : PFloat → Bool
  | .fin a => decide (c < a)
  | .inf => true
  | .ninf => false
  | .nan => false

/-- Python `c > p` (false when `p` is `nan`), as used by `max`. -/
def PFloat.qGt (c : ℚ) : PFloat → Bool
  | .fin a => decide (a < c)
  | .inf => false
  | .ninf => true
  | .nan => false

/-- Python `min(p, c)`: returns `c` iff `c < p`, else the first argument. -/
def pyMinF (p : PFloat) (c : ℚ) : PFloat := if p.qLt c then .fin c else p

/-- Python `max(p, c)`: returns `c` iff `c > p`, else the first argument. -/
def pyMaxF (p : PFloat) (c : ℚ) : PFloat := if p.qGt c then .fin c else p

/-- `c - p` for a finite `c`. -/
def pySubF (c : ℚ) : PFloat → PFloat
  | .fin a => .fin (c - a)
  | .inf => .ninf
  | .ninf => .inf
  | .nan => .nan

/-- Python `round(p, nd)`: rounds a finite value, and returns `inf`/`nan` unchanged
(as CPython's `float.__round__` with an `ndigits` argument does). -/
def PFloat.roundN (nd : ℕ) : PFloat → PFloat
  | .fin a => .fin (pyRound nd a)
  | .inf => .inf
  | .ninf => .ninf
  | .nan => .nan

end PFloatDef

section ListHelpers

variable {α : Type}

/-- Stable ascending insertion by a rational key: the element goes before the first
existing element whose key is not smaller (so earlier input stays first on ties).
Models `DataFrame.sort_values` on the inputs at hand. -/
def insertLeBy (key : α → ℚ) (x : α) : List α → List α
  | [] => [x]
  | y :: ys => if key y < key x then y :: insertLeBy key x ys else x :: y :: ys

/-- Stable sort ascending by a rational key. -/
def sortByKey (key : α → ℚ) (l : List α) : List α := l.foldr (insertLeBy key) []

theorem mem_insertLeBy (key : α → ℚ) (x : α) (l : List α) (a : α) :
    a ∈ insertLeBy key x l ↔ a = x ∨ a ∈ l := by
  induction l with
  | nil => simp [insertLeBy]
  | cons y ys ih =>
    by_cases hc : key y < key x
    · simp only [insertLeBy, if_pos hc, List.mem_cons, ih]
      try tauto
    · simp only [insertLeBy, if_neg hc, List.mem_cons]
      try tauto

theorem mem_sortByKey (key : α → ℚ) (l : List α) (a : α) :
    a ∈ sortByKey key l ↔ a ∈ l := by
  induction l with
  | nil => simp [sortByKey]
  | cons y ys ih =>
    unfold sortByKey at *
    rw [List.foldr_cons, mem_insertLeBy, ih, List.mem_cons]

theorem pairwise_insertLeBy (key : α → ℚ) (x : α) (l : List α)
    (h : l.Pairwise (fun a b => key a ≤ key b)) :
    (insertLeBy key x l).Pairwise (fun a b => key a ≤ key b) := by
  induction l with
  | nil => simp [insertLeBy]
  | cons y ys ih =>
    rw [List.pairwise_cons] at h
    by_cases hc : key y < key x
    · rw [insertLeBy, if_pos hc, List.pairwise_cons]
      constructor
      · intro a ha
        rw [mem_insertLeBy] at ha
        rcases ha with rfl | ha
        · linarith
        · exact h.1 a ha
      · exact ih h.2
    · rw [insertLeBy, if_neg hc, List.pairwise_cons]
      constructor
      · intro a ha
        rcases List.mem_cons.mp ha with rfl | ha
        · exact not_lt.mp hc
        · exact le_trans (not_lt.mp hc) (h.1 a ha)
      · rw [List.pairwise_cons]
        exact h

theorem pairwise_sortByKey (key : α → ℚ) (l : List α) :
    (sortByKey key l).Pairwise (fun a b => key a ≤ key b) := by
  induction l with
  | nil => simp [sortByKey]
  | cons y ys ih => exact pairwise_insertLeBy key y _ ih

/-- Sorted insertion without duplicates, building the ascending distinct key list of
a `groupby` (pandas `groupby(...).mean().sort_values(key)` on a unique key column). -/
def insundup {β : Type} [LinearOrder β] (x : β) : List β → List β
  | [] => [x]
  | y :: ys => if x < y then x :: y :: ys else if x = y then y :: ys else y :: insundup x ys

/-- Ascending list of the distinct elements of `l`. -/
def sortedDedup {β : Type} [LinearOrder β] (l : List β) : List β := l.foldr insundup []

theorem mem_insundup {β : Type} [LinearOrder β] (x : β) (l : List β) (a : β) :
    a ∈ insundup x l ↔ a = x ∨ a ∈ l := by
  induction l with
  | nil => simp [insundup]
  | cons y ys ih =>
    by_cases h1 : x < y
    · simp only [insundup, if_pos h1, List.mem_cons]
      try tauto
    · by_cases h2 : x = y
      · subst h2
        simp only [insundup, if_neg h1, if_pos trivial]
        simp only [List.mem_cons]
        try tauto
      · simp only [insundup, if_neg h1, if_neg h2, List.mem_cons, ih]
        try tauto

theorem mem_sortedDedup {β : Type} [LinearOrder β] (l : List β) (a : β) :
    a ∈ sortedDedup l ↔ a ∈ l := by
  induction l with
  | nil => simp [sortedDedup]
  | cons y ys ih =>
    unfold sortedDedup at *
    rw [List.foldr_cons, mem_insundup, ih, List.mem_cons]

theorem pairwise_insundup {β : Type} [LinearOrder β] (x : β) (l : List β)
    (h : l.Pairwise (· < ·)) : (insundup x l).Pairwise (· < ·) := by
  induction l with
  | nil => simp [insundup]
  | cons y ys ih =>
    rw [List.pairwise_cons] at h
    by_cases h1 : x < y
    · rw [insundup, if_pos h1, List.pairwise_cons]
      refine ⟨fun a ha => ?_, List.pairwise_cons.mpr h⟩
      rcases List.mem_cons.mp ha with rfl | ha
      · exact h1
      · exact lt_trans h1 (h.1 a ha)
    · by_cases h2 : x = y
      · rw [insundup, if_neg h1, if_pos h2]
        exact List.pairwise_cons.mpr h
      · rw [insundup, if_neg h1, if_neg h2, List.pairwise_cons]
        have hyx : y < x := by
          rcases lt_trichotomy x y with h3 | h3 | h3
          · exact absurd h3 h1
          · exact absurd h3 h2
          · exact h3
        refine ⟨fun a ha => ?_, ih h.2⟩
        rcases (mem_insundup x ys a).mp ha with rfl | ha
        · exact hyx
        · exact h.1 a ha

theorem pairwise_sortedDedup {β : Type} [LinearOrder β] (l : List β) :
    (sortedDedup l).Pairwise (· < ·) := by
  induction l with
  | nil => simp [sortedDedup]
  | cons y ys ih => exact pairwise_insundup y _ ih

/-- Sequencing of a fallible per-row computation over a list (a pandas `apply` or a
list comprehension): the first raised exception aborts the whole computation. -/
def exMapM {β : Type} (f : α → Except PyErr β) : List α → Except PyErr (List β)
  | [] => .ok []
  | a :: l =>
    match f a with
    | .error e => .error e
    | .ok b =>
      match exMapM f l with
      | .error e => .error e
      | .ok bs => .ok (b :: bs)

theorem exMapM_ok_mem {β : Type} (f : α → Except PyErr β) (l : List α) (res : List β)
    (h : exMapM f l = .ok res) : ∀ b ∈ res, ∃ a ∈ l, f a = .ok b := by
  induction l generalizing res with
  | nil =>
    unfold exMapM at h
    cases h
    intro b hb
    simp at hb
  | cons a l ih =>
    unfold exMapM at h
    split at h
    · cases h
    · split at h
      · cases h
      · cases h
        intro b hb
        rcases List.mem_cons.mp hb with rfl | hb
        · exact ⟨a, List.mem_cons_self a l, ‹f a = .ok b›⟩
        · obtain ⟨a2, ha2, hfa2⟩ := ih _ ‹exMapM f l = .ok _› b hb
          exact ⟨a2, List.mem_cons_of_mem a ha2, hfa2⟩

/-- Arithmetic mean, `Series.mean()` (call sites only apply it to nonempty groups). -/
def mean (l : List ℚ) : ℚ := l.sum / l.length

/-- `np.min` of a list (call sites guarantee nonempty input). -/
def listMin : List ℚ → ℚ
  | [] => 0
  | x :: xs => xs.foldl min x

/-- `np.max` of a list (call sites guarantee nonempty input). -/
def listMax : List ℚ → ℚ
  | [] => 0
  | x :: xs => xs.foldl max x

end ListHelpers

namespace Calculations

/-- One element of the snapshot's `rates` list. -/
structure RatePoint where
  tenor : String
  rate : ℚ
deriving DecidableEq, Repr

/-- The raw snapshot record handed to `process_market_data`. Optional fields model
presence/absence of the corresponding JSON keys; `jgb_curve` and `credit_data` are
opaque passthrough payloads (a tenor/rate list and a serialized blob). -/
structure DataJson where
  rates : Option (List RatePoint)
  boj_meetings : Option (List String)
  source_date : Option String
  updated_at : Option String
  jgb_curve : Option (List (String × ℚ))
  credit_data : Option String
deriving DecidableEq, Repr

/-- The inner `tenor_to_days` of `calculate_rate_probabilities`: day/week counts by
fixed ratios, month/year counts by calendar offset from `source_date`; a label with
none of the four unit letters yields `0`; a label whose remainder fails `float`/`int`
raises `ValueError`. -/
def tenor_to_days (tenor : String) (source_date : Date) : Except PyErr ℚ :=
  let t := strUpper tenor
  if hasCh t ('D') then pyFloat (rmCh t ('D'))
  else if hasCh t ('W') then
    match pyFloat (rmCh t ('W')) with
    | .error e => .error e
    | .ok v => .ok (v * 7)
  else if hasCh t ('M') then
    match pyInt (rmCh t ('M')) with
    | .error e => .error e
    | .ok n => .ok ((dateDiffDays (addMonths source_date n) source_date : ℤ) : ℚ)
  else if hasCh t ('Y') then
    match pyInt (rmCh t ('Y')) with
    | .error e => .error e
    | .ok n => .ok ((dateDiffDays (addYears source_date n) source_date : ℤ) : ℚ)
  else .ok 0

/-- The inner `tenor_to_years` of `process_market_data`: fixed-ratio conversion of a
tenor label to fractional years, with the same duck-typed unit detection. -/
def tenor_to_years (tenor : String) : Except PyErr ℚ :=
  let t := strUpper tenor
  if hasCh t ('D') then
    match pyFloat (rmCh t ('D')) with
    | .error e => .error e
    | .ok v => .ok (v / 365)
  else if hasCh t ('W') then
    match pyFloat (rmCh t ('W')) with
    | .error e => .error e
    | .ok v => .ok (v / 52)
  else if hasCh t ('M') then
    match pyFloat (rmCh t ('M')) with
    | .error e => .error e
    | .ok v => .ok (v / 12)
  else if hasCh t ('Y') then pyFloat (rmCh t ('Y'))
  else .ok 0

/-- The `probabilities` sub-record of the estimator's output. -/
structure ProbRecord where
  no_change : PFloat
  hike_25bps : PFloat
  cut_25bps : PFloat
deriving DecidableEq, Repr

/-- The record returned by `calculate_rate_probabilities`. -/
structure RateProbResult where
  next_meeting_date : String
  days_to_meeting : ℤ
  current_rate : ℚ
  implied_rate : PFloat
  probabilities : ProbRecord
deriving DecidableEq, Repr

/-- The three-way branch on the sign of `probability_of_hike` (source lines 78-92),
under Python float comparison semantics (both comparisons are false for `nan`).
Components are (no_change, hike_25bps, cut_25bps), before the final rounding. -/
def probsOf (probability_of_hike : PFloat) : PFloat × PFloat × PFloat :=
  if probability_of_hike.gtZero then
    let prob_hike_25bps := pyMinF (probability_of_hike.mulPosC 100) 100
    (pyMaxF (pySubF 100 prob_hike_25bps) 0, prob_hike_25bps, .fin 0)
  else if probability_of_hike.ltZero then
    let prob_cut_25bps := pyMinF (probability_of_hike.absF.mulPosC 100) 100
    (pyMaxF (pySubF 100 prob_cut_25bps) 0, .fin 0, prob_cut_25bps)
  else (.fin 100, .fin 0, .fin 0)

/-- Lines 19-23: parse `source_date` (`%Y/%m/%d`), falling back to `datetime.now()`
when the field is absent or unparseable. -/
def resolveSourceDate (data : DataJson) (now : Date) : Date :=
  match data.source_date with
  | none => now
  | some s => (pyStrptime3 ("/") s).getD now

/-- Line 45: the frame sorted ascending by the `days` column (ties keep input
order). -/
def dfOf (withDays : List (RatePoint × ℚ)) : List (RatePoint × ℚ) :=
  sortByKey (fun rd => rd.2) withDays

/-- Lines 48-52: the rate of the first `"1D"` row of the sorted frame, else the
first row's rate (the `getD 0` branch is unreachable: the frame is nonempty). -/
def currentRateOf (df : List (RatePoint × ℚ)) : ℚ :=
  match df.find? (fun rd => rd.1.tenor = ("1D")) with
  | some rd => rd.1.rate
  | none => ((df.head?).map (fun rd => rd.1.rate)).getD 0

/-- Lines 62-69: `(r_post * (days_pre + days_post) - r_pre * days_pre) / days_post`
with `days_post = row_post.days - days_pre`, as numpy float division. -/
def impliedRateOf (row_post : RatePoint × ℚ) (days_to_meeting : ℤ) (current_rate : ℚ) :
    PFloat :=
  pfDiv (row_post.1.rate * ((days_to_meeting : ℚ) + (row_post.2 - (days_to_meeting : ℚ)))
      - current_rate * (days_to_meeting : ℚ))
    (row_post.2 - (days_to_meeting : ℚ))

/-- Lines 71-104: the returned record, with `probability_of_hike =
(implied_rate - current_rate) / 0.25` and rates rounded to 3, probabilities to 1
decimal. -/
def mkRateProbResult (next_meeting_str : String) (days_to_meeting : ℤ)
    (current_rate : ℚ) (implied_rate : PFloat) : RateProbResult :=
  { next_meeting_date := next_meeting_str
    days_to_meeting := days_to_meeting
    current_rate := pyRound 3 current_rate
    implied_rate := implied_rate.roundN 3
    probabilities := {
      no_change := (probsOf ((implied_rate.subC current_rate).divPosC (1 / 4))).1.roundN 1
      hike_25bps := (probsOf ((implied_rate.subC current_rate).divPosC (1 / 4))).2.1.roundN 1
      cut_25bps := (probsOf ((implied_rate.subC current_rate).divPosC (1 / 4))).2.2.roundN 1 } }

/-- `calculate_rate_probabilities` of `src/metrics/calculations.py`. `ok none`
models `return None`; `error` models an uncaught exception escaping the function
(`keyError` from selecting the `tenor` column of an empty DataFrame, `indexError`
from `.iloc[0]` on an empty selection, `valueError` from a failed parse).
`now` models `datetime.now()`. -/
def calculate_rate_probabilities (data : DataJson) (now : Date) :
    Except PyErr (Option RateProbResult) :=
  match data.rates, data.boj_meetings with
  | none, _ => .ok none
  | _, none => .ok none
  | some rates, some meetings =>
    match meetings with
    | [] => .ok none
    | next_meeting_str :: _ =>
      if rates = [] then .error .keyError
      else
        match exMapM (fun r =>
            match tenor_to_days r.tenor (resolveSourceDate data now) with
            | .error e => .error e
            | .ok d => .ok (r, d)) rates with
        | .error e => .error e
        | .ok withDays =>
          match pyStrptime3 ("-") next_meeting_str with
          | none => .error .valueError
          | some next_meeting =>
            match (dfOf withDays).find? (fun rd =>
                ((dateDiffDays next_meeting (resolveSourceDate data now) : ℤ) : ℚ) ≤ rd.2) with
            | none => .error .indexError
            | some row_post =>
              .ok (some (mkRateProbResult next_meeting_str
                (dateDiffDays next_meeting (resolveSourceDate data now))
                (currentRateOf (dfOf withDays))
                (impliedRateOf row_post
                  (dateDiffDays next_meeting (resolveSourceDate data now))
                  (currentRateOf (dfOf withDays)))))

/-- One point of the output curve (`df.to_dict(orient="records")`). -/
structure CurvePoint where
  tenor : String
  rate : ℚ
  years : ℚ
deriving DecidableEq, Repr

/-- The combined record returned by `process_market_data`. -/
structure MarketResult where
  curve : List CurvePoint
  jgb_curve : List (String × ℚ)
  latest_date : Option String
  updated_at : Option String
  rate_probabilities : Option RateProbResult
  credit_data : Option String
deriving DecidableEq, Repr

/-- `process_market_data` of `src/metrics/calculations.py`. `ok none` models the
`return None` taken when the snapshot is falsy or has no `rates` key; `error`
models an uncaught exception (in particular the `KeyError` that selecting the
`tenor` column of the empty DataFrame built from an empty `rates` list raises). -/
def process_market_data (data : DataJson) (now : Date) :
    Except PyErr (Option MarketResult) :=
  match data.rates with
  | none => .ok none
  | some rates =>
    if rates = [] then .error .keyError
    else
      match exMapM (fun r =>
          match tenor_to_years r.tenor with
          | .error e => .error e
          | .ok y => .ok ({ tenor := r.tenor, rate := r.rate, years := y } : CurvePoint)) rates with
      | .error e => .error e
      | .ok withYears =>
        match calculate_rate_probabilities data now with
        | .error e => .error e
        | .ok rate_probabilities =>
          .ok (some {
            curve := sortByKey (fun p => p.years) withYears
            jgb_curve := data.jgb_curve.getD []
            latest_date := data.source_date
            updated_at := data.updated_at
            rate_probabilities := rate_probabilities
            credit_data := data.credit_data })

end Calculations

namespace Credit

/-- Recovery-rate parameter of the hazard model (module constant). -/
def RECOVERY_RATE : ℚ := 1 / 10

/-- Loss given default, `1.0 - RECOVERY_RATE`. -/
def LGD : ℚ := 1 - RECOVERY_RATE

/-- One row of the parsed JSDA CSV table (columns 0-6). CSV reading/decoding is the
ingestion collaborator's job (spec §1), so rows arrive as cell values: date cells as
their text, the yield cell after `pd.to_numeric(errors="coerce")` (`none` = NaN). -/
structure BondRow where
  trade_date : String
  category : ℤ
  issue_code : String
  name : String
  maturity : String
  coupon : ℚ
  yld : Option ℚ
deriving DecidableEq, Repr

/-- `parse_ymd_int`: `pd.to_datetime(str(int(x)), format="%Y%m%d", errors="coerce")`,
modelled for the 8-digit `YYYYMMDD` cells the feed uses; shorter or signed numerics
and invalid calendar dates give `none` (= `NaT`). -/
def parse_ymd_int (s : String) : Option Date :=
  match pyParseInt s with
  | none => none
  | some n =>
    if n < 10000000 ∨ 99999999 < n then none
    else mkValidDate (n / 10000) (n / 100 % 100) (n % 100)

/-- Python `\d` at the end of a bond name: ASCII or full-width digit. -/
def isPyDigit (c : Char) : Bool := c.isDigit || (('０') ≤ c && c ≤ ('９'))

/-- Python `\s` / `str.strip` whitespace, including the ideographic space. -/
def isPySpace (c : Char) : Bool := c.isWhitespace || c = ('　')

/-- `re.sub(r"\s*\d+$", "", ·)`: drop trailing digits and the whitespace run
immediately before them; a name with no trailing digit is unchanged. -/
def stripTrailingDigits (l : List Char) : List Char :=
  let r := l.reverse
  let ds := r.takeWhile isPyDigit
  if ds.isEmpty then l else ((r.drop ds.length).dropWhile isPySpace).reverse

/-- Is `c` in `[0-9A-Za-z]`? -/
def isAsciiAlnum (c : Char) : Bool :=
  c.isDigit || (('A') ≤ c && c ≤ ('Z')) || (('a') ≤ c && c ≤ ('z'))

/-- `re.sub(r"(?<=[^0-9A-Za-z])-", "ー", ·)`: each ASCII hyphen whose original
preceding character is not ASCII alphanumeric becomes a long vowel mark. -/
def dashSubAux : Option Char → List Char → List Char
  | _, [] => []
  | prev, c :: cs =>
    (if c = ('-') && (match prev with | some p => !(isAsciiAlnum p) | none => false)
     then ('ー') else c) :: dashSubAux (some c) cs

/-- The dash substitution over a whole name. -/
def dashSub (l : List Char) : List Char := dashSubAux none l

/-- `re.sub(r"劣$", "", ·)`: drop one trailing subordination marker. -/
def stripSubMark (l : List Char) : List Char :=
  if l.getLast? = some ('劣') then l.dropLast else l

/-- Python `str.strip()`. -/
def pyStrip (l : List Char) : List Char :=
  ((l.dropWhile isPySpace).reverse.dropWhile isPySpace).reverse

/-- The width-folding fragment of `unicodedata.normalize("NFKC", ·)` (full-width
ASCII block and ideographic space), which is the normalization bond names exercise;
the rest of the NFKC table is outside the model's scope. -/
def nfkcChar (c : Char) : Char :=
  if c = ('　') then (' ')
  else if ('！') ≤ c && c ≤ ('～') then Char.ofNat (c.toNat - 0xFEE0)
  else c

/-- `extract_issuer` of `src/metrics/credit.py`: strip a trailing issue number,
normalize dashes after non-alphanumerics, drop a trailing `劣`, strip and
width-normalize. -/
def extract_issuer (name : String) : String :=
  ⟨(pyStrip (stripSubMark (dashSub (stripTrailingDigits name.toList)))).map nfkcChar⟩

/-- The government-bond name test `str.contains("国庫短期証券|国債")`. -/
def govMask (r : BondRow) : Bool :=
  strContainsSub r.name ("国庫短期証券") || strContainsSub r.name ("国債")

/-- A `BondRow` with its derived columns: `years_to_maturity` (`none` = NaN from an
unparseable date) and the yield after the `>= 999` sentinel is set to NaN. -/
structure XRow where
  row : BondRow
  years : Option ℚ
  yld : Option ℚ
deriving DecidableEq, Repr

/-- The preprocessing of lines 84-95 / 217-237: parse both dates, derive
`years_to_maturity = (maturity - trade_date).days / 365.0`, blank sentinel yields. -/
def enrich (r : BondRow) : XRow :=
  { row := r
    years := match parse_ymd_int r.maturity, parse_ymd_int r.trade_date with
      | some m, some t => some ((dateDiffDays m t : ℤ) / (365 : ℚ))
      | _, _ => none
    yld := match r.yld with
      | some v => if 999 ≤ v then none else some v
      | none => none }

/-- The government subset: name matches the pattern, yield and maturity valid
(no positivity requirement on `years_to_maturity`, unlike the corporate filter). -/
def govRecords (rows : List BondRow) : List XRow :=
  (rows.map enrich).filter (fun x => govMask x.row && x.yld.isSome && x.years.isSome)

/-- The corporate subset: category 40, valid yield, strictly positive maturity. -/
def corpRecords (rows : List BondRow) : List XRow :=
  (rows.map enrich).filter (fun x =>
    decide (x.row.category = 40) && x.yld.isSome
      && (match x.years with | some t => decide (0 < t) | none => false))

/-- The `(years_to_maturity, yield)` pairs of the government subset. -/
def keyedGov (rows : List BondRow) : List (ℚ × ℚ) :=
  (govRecords rows).filterMap (fun x =>
    match x.years, x.yld with
    | some t, some v => some (t, v)
    | _, _ => none)

/-- `groupby(key).mean().reset_index().sort_values(key)`: the ascending distinct
keys, each paired with the mean of its group's values. -/
def groupMeanSort (pairs : List (ℚ × ℚ)) : List (ℚ × ℚ) :=
  (sortedDedup (pairs.map Prod.fst)).map
    (fun k => (k, mean ((pairs.filter (fun p => decide (p.1 = k))).map Prod.snd)))

/-- The display-curve buckets of `extract_jgb_curve`: keys are `years_to_maturity`
ROUNDED to 3 decimals (line 106) before grouping. -/
def jgbCurveBuckets (rows : List BondRow) : List (ℚ × ℚ) :=
  groupMeanSort ((keyedGov rows).map (fun p => (pyRound 3 p.1, p.2)))

/-- The risk-free curve of `calculate_default_probabilities`: keys are the RAW
`years_to_maturity` (line 252 copies the column without rounding). -/
def rfCurve (rows : List BondRow) : List (ℚ × ℚ) :=
  groupMeanSort (keyedGov rows)

/-- `np.interp(q, xp, fp)` for strictly increasing `xp`: clamp below the first and
above the last point, linear interpolation in between (call sites guarantee at
least 2 points; the `[]` case is unreachable and returns 0). -/
def interp (q : ℚ) : List (ℚ × ℚ) → ℚ
  | [] => 0
  | [p] => p.2
  | p :: p2 :: rest =>
    if q ≤ p.1 then p.2
    else if q ≤ p2.1 then p.2 + (p2.2 - p.2) * (q - p.1) / (p2.1 - p.1)
    else interp q (p2 :: rest)

/-- The inner `tenor_to_years` of `extract_jgb_curve` (upper-cases AND strips,
unlike the `calculations.py` copy; the two evolved separately). -/
def tenor_to_years (tenor : String) : Except PyErr ℚ :=
  let t : String := ⟨pyStrip (strUpper tenor).toList⟩
  if hasCh t ('D') then
    match pyFloat (rmCh t ('D')) with
    | .error e => .error e
    | .ok v => .ok (v / 365)
  else if hasCh t ('W') then
    match pyFloat (rmCh t ('W')) with
    | .error e => .error e
    | .ok v => .ok (v / 52)
  else if hasCh t ('M') then
    match pyFloat (rmCh t ('M')) with
    | .error e => .error e
    | .ok v => .ok (v / 12)
  else if hasCh t ('Y') then pyFloat (rmCh t ('Y'))
  else .ok 0

/-- The hard-coded fallback tenor grid of `extract_jgb_curve`. -/
def standardTenors : List (String × ℚ) :=
  [(("1D"), 1/365), (("1W"), 7/365), (("2W"), 14/365), (("1M"), 1/12), (("2M"), 2/12),
   (("3M"), 3/12), (("6M"), 6/12), (("9M"), 9/12), (("1Y"), 1), (("2Y"), 2), (("3Y"), 3),
   (("4Y"), 4), (("5Y"), 5), (("7Y"), 7), (("10Y"), 10), (("15Y"), 15), (("20Y"), 20),
   (("30Y"), 30), (("40Y"), 40)]

/-- The tenor grid of lines 133-158: a falsy `target_tenors` (absent or empty)
selects the hard-coded standard grid, else each requested label is converted with
`tenor_to_years` (whose `ValueError` on a malformed label propagates). -/
def targetList (target_tenors : Option (List String)) : Except PyErr (List (String × ℚ)) :=
  match target_tenors with
  | some ts =>
    if ts = [] then .ok standardTenors
    else exMapM (fun t =>
      match tenor_to_years t with
      | .error e => .error e
      | .ok y => .ok (t, y)) ts
  | none => .ok standardTenors

/-- `extract_jgb_curve` of `src/metrics/credit.py`, from the parsed CSV table on:
build the rounded-bucket government curve, then interpolate the target tenor grid,
keeping only targets whose years value lies inside `[T_points.min(), T_points.max()]`. -/
def extract_jgb_curve (rows : List BondRow) (target_tenors : Option (List String)) :
    Except PyErr (List (String × ℚ)) :=
  if govRecords rows = [] then .ok []
  else if (jgbCurveBuckets rows).length < 2 then .ok []
  else
    match targetList target_tenors with
    | .error e => .error e
    | .ok tenor_list =>
      .ok ((tenor_list.filter (fun p =>
          decide (listMin ((jgbCurveBuckets rows).map Prod.fst) ≤ p.2 ∧
            p.2 ≤ listMax ((jgbCurveBuckets rows).map Prod.fst)))).map
        (fun p => (p.1, pyRound 3 (interp p.2 (jgbCurveBuckets rows)))))

/-- One corporate bond after spread computation (lines 281-290). -/
structure CorpBond where
  issuer : String
  spread_dec : ℚ
  years : ℚ
deriving DecidableEq, Repr

/-- The corporate rows with issuer, decimal spread against the interpolated
risk-free curve, and maturity (lines 281-290). -/
def corpRows (rows : List BondRow) : List CorpBond :=
  let pts := rfCurve rows
  (corpRecords rows).filterMap (fun x =>
    match x.years, x.yld with
    | some t, some v => some ⟨extract_issuer x.row.name, (v - interp t pts) / 100, t⟩
    | _, _ => none)

/-- One row of the per-issuer aggregation frame `issuer_stats` (lines 298-310),
including its `lambda` column (field `lam`). -/
structure IssuerStat where
  issuer : String
  n_bonds : ℕ
  avg_spread_dec : ℚ
  avg_years : ℚ
  lam : ℚ
deriving DecidableEq, Repr

/-- `corp.groupby("issuer").agg(...)` plus the `lambda` column: pandas `groupby`
sorts the distinct issuer keys ascending; `lambda = (avg_spread_dec / LGD).clip(lower=0)`. -/
def issuerStats (rows : List BondRow) : List IssuerStat :=
  let cb := corpRows rows
  (sortedDedup (cb.map (fun b => b.issuer))).map (fun k =>
    let grp := cb.filter (fun b => decide (b.issuer = k))
    { issuer := k
      n_bonds := grp.length
      avg_spread_dec := mean (grp.map (fun b => b.spread_dec))
      avg_years := mean (grp.map (fun b => b.years))
      lam := max (mean (grp.map (fun b => b.spread_dec)) / LGD) 0 })

/-- `round(PD_t * 100, 2)` where `PD_t = 1 - exp(-lambda * t)`. -/
noncomputable def pdPct (lam : ℚ) (t : ℕ) : ℝ :=
  pyRound 2 ((1 - Real.exp (-((lam : ℝ) * (t : ℝ)))) * 100)

/-- One element of the list `calculate_default_probabilities` returns. -/
structure IssuerRec where
  issuer : String
  n_bonds : ℕ
  avg_spread_bps : ℚ
  avg_years : ℚ
  pd_1y : ℝ
  pd_3y : ℝ
  pd_5y : ℝ
  pd_10y : ℝ

/-- The output formatting of lines 318-332. -/
noncomputable def mkIssuerRec (s : IssuerStat) : IssuerRec :=
  { issuer := s.issuer
    n_bonds := s.n_bonds
    avg_spread_bps := pyRound 1 (s.avg_spread_dec * 10000)
    avg_years := pyRound 1 s.avg_years
    pd_1y := pdPct s.lam 1
    pd_3y := pdPct s.lam 3
    pd_5y := pdPct s.lam 5
    pd_10y := pdPct s.lam 10 }

/-- Stable insertion for the descending `results.sort(key=pd_5y, reverse=True)`
(Python's sort is stable: earlier elements stay first on equal keys). -/
noncomputable def insDesc (r : IssuerRec) : List IssuerRec → List IssuerRec
  | [] => [r]
  | x :: xs => if r.pd_5y < x.pd_5y then x :: insDesc r xs else r :: x :: xs

/-- `results.sort(key=lambda x: x["pd_5y"], reverse=True)`. -/
noncomputable def sortPd5Desc (l : List IssuerRec) : List IssuerRec := l.foldr insDesc []

/-- `calculate_default_probabilities` of `src/metrics/credit.py`, from the parsed
CSV table on: empty list on each insufficiency early-return (no government bonds,
fewer than 2 curve points, no corporate bonds), else the per-issuer records sorted
by 5-year PD descending. -/
noncomputable def calculate_default_probabilities (rows : List BondRow) : List IssuerRec :=
  if govRecords rows = [] then []
  else if (rfCurve rows).length < 2 then []
  else if corpRecords rows = [] then []
  else sortPd5Desc ((issuerStats rows).map mkIssuerRec)

end Credit

section ClaimData

/-- Date standing in for `datetime.now()` in the concrete runs below; every concrete
snapshot carries a valid `source_date`, so this value is never consulted. -/
def dNow : Date := ⟨2025, 1, 1⟩

/-- Snapshot whose nearest meeting (151 days out) lies beyond the longest curve
tenor (1M = 31 days). -/
def snapC1 : Calculations.DataJson :=
  { rates := some [⟨("1D"), 1/2⟩, ⟨("1M"), 3/5⟩]
    boj_meetings := some [("2025-06-15")]
    source_date := some ("2025/01/15")
    updated_at := none, jgb_curve := none, credit_data := none }

/-- Snapshot with no `rates` key at all. -/
def snapNoRates : Calculations.DataJson :=
  { rates := none
    boj_meetings := some [("2025-06-15")]
    source_date := some ("2025/01/15")
    updated_at := none, jgb_curve := none, credit_data := none }

/-- Snapshot whose `rates` key holds an empty list. -/
def snapEmptyRates : Calculations.DataJson :=
  { rates := some []
    boj_meetings := some [("2025-06-15")]
    source_date := some ("2025/01/15")
    updated_at := none, jgb_curve := none, credit_data := none }

/-- Snapshot in which the first post-meeting curve point (2W = 14 days) coincides
exactly with the meeting horizon (14 days), so `days_post_span = 0`. -/
def snapC3 : Calculations.DataJson :=
  { rates := some [⟨("1D"), 1/2⟩, ⟨("2W"), 3/4⟩]
    boj_meetings := some [("2025-01-15")]
    source_date := some ("2025/01/01")
    updated_at := none, jgb_curve := none, credit_data := none }

/-- The record the degenerate-horizon run actually returns: a non-finite implied
rate and a 100% hike probability. -/
def recC3 : Calculations.RateProbResult :=
  { next_meeting_date := ("2025-01-15")
    days_to_meeting := 14
    current_rate := 1/2
    implied_rate := .inf
    probabilities := { no_change := .fin 0, hike_25bps := .fin 100, cut_25bps := .fin 0 } }

end ClaimData

/-- C1: the claim says that when the nearest meeting lies beyond the longest curve
tenor, `process_market_data` still returns a result with a null
`rate_probabilities` and a populated `curve`. On the code this is false: the
`.iloc[0]` on the empty post-meeting selection raises an uncaught `IndexError`
inside `calculate_rate_probabilities`, which propagates out of
`process_market_data`, so the whole computation fails and no partial result is
produced. This theorem evaluates both functions at such a snapshot. -/
theorem C1_meeting_beyond_curve_raises_indexerror :
    Calculations.calculate_rate_probabilities snapC1 dNow = .error .indexError ∧
    Calculations.process_market_data snapC1 dNow = .error .indexError := by
  with_unfolding_all decide

/-- C2: a snapshot lacking the `rates` key does return the unavailable marker
(`None`), but a snapshot whose `rates` is an EMPTY LIST does not: selecting the
`tenor` column of the empty DataFrame raises an uncaught `KeyError`, so
`process_market_data` raises instead of returning the marker. -/
theorem C2_empty_rates_raises_keyerror :
    Calculations.process_market_data snapNoRates dNow = .ok none ∧
    Calculations.process_market_data snapEmptyRates dNow = .error .keyError := by
  with_unfolding_all decide

/-- C3: the claim says a degenerate horizon (`days_post_span = 0`) yields a defined
failure instead of a numeric record. On the code this is false: numpy division by
zero only warns, the implied rate comes out `inf` (here the numerator is positive),
and `calculate_rate_probabilities` returns a full record with a 100% hike
probability. -/
theorem C3_degenerate_horizon_returns_record :
    Calculations.calculate_rate_probabilities snapC3 dNow = .ok (some recC3) ∧
    recC3.implied_rate = .inf := by
  with_unfolding_all decide

section GroupMeanSortLemmas

theorem groupMeanSort_keys (pairs : List (ℚ × ℚ)) :
    (Credit.groupMeanSort pairs).map Prod.fst = sortedDedup (pairs.map Prod.fst) := by
  unfold Credit.groupMeanSort
  rw [List.map_map]
  exact List.map_id _

theorem groupMeanSort_keys_pairwise (pairs : List (ℚ × ℚ)) :
    ((Credit.groupMeanSort pairs).map Prod.fst).Pairwise (· < ·) := by
  rw [groupMeanSort_keys]
  exact pairwise_sortedDedup _

theorem mem_groupMeanSort_keys (pairs : List (ℚ × ℚ)) (k : ℚ) :
    k ∈ (Credit.groupMeanSort pairs).map Prod.fst ↔ k ∈ pairs.map Prod.fst := by
  rw [groupMeanSort_keys]
  exact mem_sortedDedup _ _

theorem groupMeanSort_val (pairs : List (ℚ × ℚ)) :
    ∀ p ∈ Credit.groupMeanSort pairs,
      p.2 = mean ((pairs.filter (fun q => decide (q.1 = p.1))).map Prod.snd) := by
  intro p hp
  unfold Credit.groupMeanSort at hp
  obtain ⟨k, _, rfl⟩ := List.mem_map.mp hp
  rfl

end GroupMeanSortLemmas

section ClaimC5

/-- Two government bonds 101 and 102 days from maturity: their raw
`years_to_maturity` values (101/365, 102/365) are not 3-decimal values. -/
def rowsC5 : List Credit.BondRow :=
  [ { trade_date := ("20240101"), category := 10, issue_code := ("G1"), name := ("国債A"),
      maturity := ("20240411"), coupon := 0, yld := some 1 },
    { trade_date := ("20240101"), category := 10, issue_code := ("G2"), name := ("国債B"),
      maturity := ("20240412"), coupon := 0, yld := some 2 } ]

/-- C5, counterexample: the claim says BOTH government-curve constructions bucket by
`years_to_maturity` rounded to 3 decimals. False: on this input the risk-free curve
built inside `calculate_default_probabilities` differs from the rounded-bucket
curve of `extract_jgb_curve`, and its keys (101/365, 102/365) are not even
3-decimal values, so no rounding to 3 decimals happened (line 252 copies the raw
column, unlike line 106). -/
theorem C5_counterexample_rf_curve_not_rounded :
    Credit.rfCurve rowsC5 ≠ Credit.jgbCurveBuckets rowsC5 ∧
    ¬ (((Credit.rfCurve rowsC5).map Prod.fst).all (fun k => decide (pyRound 3 k = k)) = true) := by
  with_unfolding_all decide

/-- C5, amended: `extract_jgb_curve` buckets government bonds by years-to-maturity
rounded to 3 decimals, while the risk-free curve inside
`calculate_default_probabilities` buckets by the raw (unrounded) years-to-maturity;
in both, a curve point's rate is the mean of the yields in its bucket, and the
buckets are sorted strictly ascending by key. -/
theorem C5_amended_bucketing (rows : List Credit.BondRow) :
    ((Credit.jgbCurveBuckets rows).map Prod.fst).Pairwise (· < ·) ∧
    ((Credit.rfCurve rows).map Prod.fst).Pairwise (· < ·) ∧
    (∀ k, k ∈ (Credit.jgbCurveBuckets rows).map Prod.fst ↔
        k ∈ (Credit.keyedGov rows).map (fun p => pyRound 3 p.1)) ∧
    (∀ k, k ∈ (Credit.rfCurve rows).map Prod.fst ↔ k ∈ (Credit.keyedGov rows).map Prod.fst) ∧
    (∀ p ∈ Credit.jgbCurveBuckets rows,
        p.2 = mean (((((Credit.keyedGov rows).map (fun q => (pyRound 3 q.1, q.2)))).filter
          (fun q => decide (q.1 = p.1))).map Prod.snd)) ∧
    (∀ p ∈ Credit.rfCurve rows,
        p.2 = mean (((Credit.keyedGov rows).filter (fun q => decide (q.1 = p.1))).map Prod.snd)) := by
  refine ⟨groupMeanSort_keys_pairwise _, groupMeanSort_keys_pairwise _, ?_, ?_, ?_, ?_⟩
  · intro k
    rw [Credit.jgbCurveBuckets, mem_groupMeanSort_keys, List.map_map]
    rfl
  · intro k
    exact mem_groupMeanSort_keys _ k
  · exact groupMeanSort_val _
  · exact groupMeanSort_val _

/-- Witness for the amended C5 claim at the concrete two-bond input: the risk-free
keys are strictly ascending, the rounded key 277/1000 is a display bucket, and the
raw-key bucket (101/365) carries its bond's yield 1 as the bucket mean. -/
theorem C5_amended_witness :
    ((Credit.rfCurve rowsC5).map Prod.fst).Pairwise (· < ·) ∧
    ((277 : ℚ)/1000 ∈ (Credit.jgbCurveBuckets rowsC5).map Prod.fst ↔
      (277 : ℚ)/1000 ∈ (Credit.keyedGov rowsC5).map (fun p => pyRound 3 p.1)) ∧
    (((101 : ℚ)/365, (1 : ℚ)).2 =
      mean (((Credit.keyedGov rowsC5).filter
        (fun q => decide (q.1 = ((101 : ℚ)/365, (1 : ℚ)).1))).map Prod.snd)) := by
  obtain ⟨-, h2, h3, -, -, h6⟩ := C5_amended_bucketing rowsC5
  refine ⟨h2, h3 _, h6 ((101 : ℚ)/365, (1 : ℚ)) ?_⟩
  with_unfolding_all decide

end ClaimC5

section ClaimC9

/-- C9: linear interpolation over a strictly increasing point list is exact at every
knot: querying `np.interp` at a curve x-value returns that point's y-value, so a
target tenor whose years value coincides with a bucket key reproduces that bucket's
average yield. -/
theorem C9_interp_exact_at_knots (pts : List (ℚ × ℚ))
    (hs : (pts.map Prod.fst).Pairwise (· < ·)) :
    ∀ x y : ℚ, (x, y) ∈ pts → Credit.interp x pts = y := by
  induction pts with
  | nil => intro x y hm; cases hm
  | cons p rest ih =>
    intro x y hm
    rw [List.map_cons, List.pairwise_cons] at hs
    rcases List.mem_cons.mp hm with h | h
    · cases h
      cases rest with
      | nil => rfl
      | cons p2 r2 => simp [Credit.interp]
    · have hlt : p.1 < x := hs.1 x (by exact List.mem_map.mpr ⟨(x, y), h, rfl⟩)
      cases rest with
      | nil => cases h
      | cons p2 r2 =>
        rcases List.mem_cons.mp h with h2 | h2
        · have hp2 : p2 = (x, y) := h2.symm
          subst hp2
          have hne : x - p.1 ≠ 0 := sub_ne_zero.mpr (ne_of_gt hlt)
          show Credit.interp x (p :: (x, y) :: r2) = y
          rw [Credit.interp]
          rw [if_neg (not_le.mpr hlt), if_pos (show x ≤ (x, y).1 from le_rfl)]
          show p.2 + (y - p.2) * (x - p.1) / (x - p.1) = y
          field_simp
        · have hp2x : p2.1 < x := by
            have hs2 := List.pairwise_cons.mp hs.2
            exact hs2.1 x (List.mem_map.mpr ⟨(x, y), h2, rfl⟩)
          show Credit.interp x (p :: p2 :: r2) = y
          rw [Credit.interp]
          rw [if_neg (not_le.mpr hlt), if_neg (not_le.mpr hp2x)]
          exact ih hs.2 x y (List.mem_cons_of_mem p2 h2)

/-- Witness for C9 at the concrete two-point risk-free curve of `rowsC5`: querying
at the knot 101/365 returns exactly that bucket's mean yield 1. -/
theorem C9_witness_interp_at_knot : Credit.interp ((101 : ℚ)/365) (Credit.rfCurve rowsC5) = 1 :=
  C9_interp_exact_at_knots (Credit.rfCurve rowsC5) (by with_unfolding_all decide)
    ((101 : ℚ)/365) 1 (by with_unfolding_all decide)

end ClaimC9

section ClaimC10

/-- A bond that is BOTH a government bond by name (contains `国債`) and a corporate
bond by category (40), with a valid yield and positive maturity. -/
def bondC10 : Credit.BondRow :=
  { trade_date := ("20240101"), category := 40, issue_code := ("X1"), name := ("利付国債 10"),
    maturity := ("20250101"), coupon := 0, yld := some 1 }

/-- A pure government bond sharing the dual bond's maturity bucket. -/
def govB10 : Credit.BondRow :=
  { trade_date := ("20240101"), category := 10, issue_code := ("G1"), name := ("国債B"),
    maturity := ("20250101"), coupon := 0, yld := some 2 }

/-- A pure government bond at a longer maturity (so the curve has 2 points). -/
def govC10 : Credit.BondRow :=
  { trade_date := ("20240101"), category := 10, issue_code := ("G2"), name := ("国債C"),
    maturity := ("20260101"), coupon := 0, yld := some 2 }

/-- Input containing the dual-classified bond plus two pure government bonds, one of
them in the same maturity bucket. -/
def rowsC10 : List Credit.BondRow := [bondC10, govB10, govC10]

/-- C10: the government and corporate filters of `calculate_default_probabilities`
are not mutually exclusive: this category-40 bond whose name matches the
government pattern lands in both subsets; its yield 1 enters the risk-free bucket
average ((1+2)/2 = 3/2 at 366/365 years), and its own spread is then computed
against that curve ((1 - 3/2)/100 = -1/200). -/
theorem C10_gov_corp_filters_overlap :
    Credit.enrich bondC10 ∈ Credit.govRecords rowsC10 ∧
    Credit.enrich bondC10 ∈ Credit.corpRecords rowsC10 ∧
    Credit.rfCurve rowsC10 = [((366 : ℚ)/365, 3/2), ((731 : ℚ)/365, 2)] ∧
    Credit.corpRows rowsC10 = [⟨("利付国債"), -(1/200), (366 : ℚ)/365⟩] := by
  have hg : Credit.govRecords rowsC10 =
      [Credit.enrich bondC10, Credit.enrich govB10, Credit.enrich govC10] := by
    with_unfolding_all rfl
  have hc : Credit.corpRecords rowsC10 = [Credit.enrich bondC10] := by
    with_unfolding_all rfl
  have hr : Credit.rfCurve rowsC10 = [((366 : ℚ)/365, 3/2), ((731 : ℚ)/365, 2)] := by
    with_unfolding_all rfl
  have hcr : Credit.corpRows rowsC10 = [⟨("利付国債"), -(1/200), (366 : ℚ)/365⟩] := by
    with_unfolding_all rfl
  refine ⟨?_, ?_, hr, hcr⟩
  · rw [hg]; exact List.mem_cons_self _ _
  · rw [hc]; exact List.mem_cons_self _ _

end ClaimC10

section ClaimC4

/-- Does the uppercased label contain none of the four unit letters? This is the
exact complement of the converters' duck-typed unit detection. -/
def noUnitLetters (t : String) : Bool :=
  !(hasCh (strUpper t) ('D') || hasCh (strUpper t) ('W') || hasCh (strUpper t) ('M')
    || hasCh (strUpper t) ('Y'))

/-- C4, counterexample: the claim says ANY label that is not `<int><unit>` converts
to 0 without raising. False: a label that contains a unit letter but whose
remainder is not numeric -- here `"XD"`, whose remainder `"X"` fails `float` --
raises `ValueError` in both converters instead of converting to 0. -/
theorem C4_counterexample_XD_raises :
    Calculations.tenor_to_years ("XD") = .error .valueError ∧
    Calculations.tenor_to_days ("XD") dNow = .error .valueError := by
  with_unfolding_all decide

/-- C4, amended: the converters are total only on labels containing NO unit letter
(after uppercasing): those convert to 0 in both variants without error, and
zero-duration points are not rejected -- the output curve of `process_market_data`
is always sorted by non-decreasing years, so years-0 points sort to the front.
Labels containing a unit letter with a non-numeric remainder raise `ValueError`. -/
theorem C4_amended_no_unit_totality :
    (∀ t : String, noUnitLetters t = true → Calculations.tenor_to_years t = .ok 0) ∧
    (∀ (t : String) (d : Date), noUnitLetters t = true → Calculations.tenor_to_days t d = .ok 0) ∧
    (∀ (data : Calculations.DataJson) (now : Date) (res : Calculations.MarketResult),
      Calculations.process_market_data data now = .ok (some res) →
      res.curve.Pairwise (fun a b => a.years ≤ b.years)) := by
  refine ⟨?_, ?_, ?_⟩
  · intro t ht
    simp only [noUnitLetters, Bool.not_eq_true', Bool.or_eq_false_iff] at ht
    obtain ⟨⟨⟨hD, hW⟩, hM⟩, hY⟩ := ht
    simp [Calculations.tenor_to_years, hD, hW, hM, hY]
  · intro t d ht
    simp only [noUnitLetters, Bool.not_eq_true', Bool.or_eq_false_iff] at ht
    obtain ⟨⟨⟨hD, hW⟩, hM⟩, hY⟩ := ht
    simp [Calculations.tenor_to_days, hD, hW, hM, hY]
  · intro data now res h
    unfold Calculations.process_market_data at h
    split at h
    · simp at h
    · split at h
      · exact Except.noConfusion h
      · split at h
        · exact Except.noConfusion h
        · split at h
          · exact Except.noConfusion h
          · simp only [Except.ok.injEq, Option.some.injEq] at h
            subst h
            exact pairwise_sortByKey _ _

/-- Snapshot with a unit-less label (`"spot"` → years 0) and no meetings. -/
def snapC4 : Calculations.DataJson :=
  { rates := some [⟨("1Y"), 3/5⟩, ⟨("spot"), 1/2⟩]
    boj_meetings := none
    source_date := some ("2025/01/15")
    updated_at := none, jgb_curve := none, credit_data := none }

/-- The result `process_market_data` produces for `snapC4`: the years-0 point
sorted to the front, `rate_probabilities` null. -/
def resC4 : Calculations.MarketResult :=
  { curve := [⟨("spot"), 1/2, 0⟩, ⟨("1Y"), 3/5, 1⟩]
    jgb_curve := []
    latest_date := some ("2025/01/15")
    updated_at := none
    rate_probabilities := none
    credit_data := none }

/-- Witness for the amended C4 claim: the unit-less label `"spot"` converts to 0
in both converters, and the concrete output curve is sorted by years. -/
theorem C4_amended_witness :
    Calculations.tenor_to_years ("spot") = .ok 0 ∧
    Calculations.tenor_to_days ("spot") dNow = .ok 0 ∧
    resC4.curve.Pairwise (fun a b => a.years ≤ b.years) := by
  obtain ⟨h1, h2, h3⟩ := C4_amended_no_unit_totality
  refine ⟨h1 ("spot") (by with_unfolding_all decide), h2 ("spot") dNow (by with_unfolding_all decide),
    h3 snapC4 dNow resC4 ?_⟩
  with_unfolding_all decide

end ClaimC4

section ClaimC8

theorem targetList_some_mem (ts : List String) (hts : ts ≠ [])
    (tl : List (String × ℚ)) (h : Credit.targetList (some ts) = .ok tl) :
    ∀ p ∈ tl, Credit.tenor_to_years p.1 = .ok p.2 := by
  intro p hp
  have h2 : (if ts = [] then Except.ok Credit.standardTenors
      else exMapM (fun t =>
        match Credit.tenor_to_years t with
        | .error e => .error e
        | .ok y => .ok (t, y)) ts) = .ok tl := h
  rw [if_neg hts] at h2
  obtain ⟨t, _, hft⟩ := exMapM_ok_mem _ _ _ h2 p hp
  revert hft
  split
  · intro hft; exact Except.noConfusion hft
  · intro hft
    simp only [Except.ok.injEq] at hft
    subst hft
    assumption

/-- C8: the two interpolation uses are asymmetric. (1) `extract_jgb_curve`
range-filters: every point of its result comes from a tenor-grid entry whose years
value lies inside `[T_points.min(), T_points.max()]` (and for an explicitly passed
target list, that years value is exactly the tenor's converted years). (2) The
per-bond spread computation's `np.interp` accepts every query maturity, clamping a
query at or below the first knot to the first y-value and a query at or beyond the
last knot to the last y-value. -/
theorem C8_range_filter_vs_clamped_extrapolation :
    (∀ (rows : List Credit.BondRow) (ts : Option (List String)) (res : List (String × ℚ)),
      Credit.extract_jgb_curve rows ts = .ok res →
      ∀ p ∈ res, ∃ (tlist : List (String × ℚ)) (y : ℚ),
        Credit.targetList ts = .ok tlist ∧ (p.1, y) ∈ tlist ∧
        listMin ((Credit.jgbCurveBuckets rows).map Prod.fst) ≤ y ∧
        y ≤ listMax ((Credit.jgbCurveBuckets rows).map Prod.fst)) ∧
    (∀ (ts : List String) (tlist : List (String × ℚ)), ts ≠ [] →
      Credit.targetList (some ts) = .ok tlist →
      ∀ p ∈ tlist, Credit.tenor_to_years p.1 = .ok p.2) ∧
    (∀ (q x y : ℚ) (tl : List (ℚ × ℚ)), q ≤ x → Credit.interp q ((x, y) :: tl) = y) ∧
    (∀ (q x y : ℚ) (pts : List (ℚ × ℚ)),
      ((pts ++ [(x, y)]).map Prod.fst).Pairwise (· < ·) → x ≤ q →
      Credit.interp q (pts ++ [(x, y)]) = y) := by
  refine ⟨?_, fun ts tlist hts h => targetList_some_mem ts hts tlist h, ?_, ?_⟩
  · intro rows ts res h p hp
    unfold Credit.extract_jgb_curve at h
    split at h
    · simp only [Except.ok.injEq] at h
      subst h
      cases hp
    · split at h
      · simp only [Except.ok.injEq] at h
        subst h
        cases hp
      · split at h
        · exact Except.noConfusion h
        · simp only [Except.ok.injEq] at h
          subst h
          obtain ⟨p0, hp0f, rfl⟩ := List.mem_map.mp hp
          have hp0 := List.mem_filter.mp hp0f
          have hrange := of_decide_eq_true hp0.2
          refine ⟨_, p0.2, ‹Credit.targetList ts = .ok _›, ?_, hrange.1, hrange.2⟩
          simpa using hp0.1
  · intro q x y tl hq
    cases tl with
    | nil => rfl
    | cons p2 r2 => simp [Credit.interp, hq]
  · intro q x y pts
    induction pts with
    | nil => intro _ _; rfl
    | cons a rest ih =>
      intro hpw hxq
      rw [List.cons_append, List.map_cons, List.pairwise_cons] at hpw
      have ha : a.1 < x := hpw.1 x (List.mem_map.mpr ⟨(x, y), by simp, rfl⟩)
      have haq : ¬ q ≤ a.1 := not_le.mpr (lt_of_lt_of_le ha hxq)
      cases rest with
      | nil =>
        show Credit.interp q (a :: [(x, y)]) = y
        rw [Credit.interp, if_neg haq]
        by_cases hq2 : q ≤ (x, y).1
        · rw [if_pos hq2]
          have hqx : q = x := le_antisymm hq2 hxq
          have hne : x - a.1 ≠ 0 := sub_ne_zero.mpr (ne_of_gt ha)
          show a.2 + (y - a.2) * (q - a.1) / (x - a.1) = y
          rw [hqx]
          field_simp
        · rw [if_neg hq2]
          rfl
      | cons b r2 =>
        have hb : b.1 < x := by
          rw [List.cons_append, List.map_cons, List.pairwise_cons] at hpw
          exact hpw.2.1 x (List.mem_map.mpr ⟨(x, y), by simp, rfl⟩)
        show Credit.interp q (a :: b :: (r2 ++ [(x, y)])) = y
        rw [Credit.interp, if_neg haq, if_neg (not_le.mpr (lt_of_lt_of_le hb hxq))]
        exact ih hpw.2 hxq

/-- Two government bonds at roughly 1 and 2 years used in the C8 witness. -/
def rowsC8 : List Credit.BondRow :=
  [ { trade_date := ("20240101"), category := 10, issue_code := ("G1"), name := ("国債A"),
      maturity := ("20250101"), coupon := 0, yld := some 1 },
    { trade_date := ("20240101"), category := 10, issue_code := ("G2"), name := ("国債B"),
      maturity := ("20260101"), coupon := 0, yld := some (3/2) } ]

/-- The display curve `extract_jgb_curve` returns for `rowsC8` with target `["2Y"]`
(its rounded buckets span `[1.003, 2.003]`, so `2Y` is in range). -/
def resC8 : List (String × ℚ) := [(("2Y"), 749/500)]

/-- Witness for C8: the range-filter conclusion at the concrete curve and target
list, the parse fact for the explicit target list, plus both clamping identities
at concrete queries outside the knot range. -/
theorem C8_witness :
    (∀ p ∈ resC8, ∃ (tlist : List (String × ℚ)) (y : ℚ),
      Credit.targetList (some [("2Y")]) = .ok tlist ∧ (p.1, y) ∈ tlist ∧
      listMin ((Credit.jgbCurveBuckets rowsC8).map Prod.fst) ≤ y ∧
      y ≤ listMax ((Credit.jgbCurveBuckets rowsC8).map Prod.fst)) ∧
    (∀ p ∈ [(("2Y"), (2 : ℚ))], Credit.tenor_to_years p.1 = .ok p.2) ∧
    Credit.interp 0 [((1 : ℚ), 5)] = 5 ∧
    Credit.interp 3 [((1 : ℚ), 5), (2, 7)] = 7 := by
  obtain ⟨h1, h1b, h2, h3⟩ := C8_range_filter_vs_clamped_extrapolation
  refine ⟨h1 rowsC8 (some [("2Y")]) resC8 ?_,
    h1b [("2Y")] [(("2Y"), (2 : ℚ))] (by simp) ?_, h2 0 1 5 [] (by norm_num), ?_⟩
  · with_unfolding_all rfl
  · with_unfolding_all rfl
  · have := h3 3 2 7 [((1 : ℚ), 5)] (by norm_num) (by norm_num)
    simpa using this
end ClaimC8

section ClaimC7

theorem pyMinF_fin (a c : ℚ) : pyMinF (.fin a) c = .fin (min a c) := by
  unfold pyMinF PFloat.qLt
  by_cases h : c < a
  · simp [h, min_eq_right h.le]
  · simp [h, min_eq_left (not_lt.mp h)]

theorem pyMaxF_fin (a c : ℚ) : pyMaxF (.fin a) c = .fin (max a c) := by
  unfold pyMaxF PFloat.qGt
  by_cases h : a < c
  · simp [h, max_eq_right h.le]
  · simp [h, max_eq_left (not_lt.mp h)]

theorem pyRound1_hundred : pyRound 1 ((100 : ℚ)) = 100 := by
  have h := pyRound_intCast (α := ℚ) 1 100
  norm_num at h
  exact h

/-- Bounds for the rounded probability pair produced by a hike (or, symmetrically,
cut) branch with raw magnitude `w > 0`. -/
theorem hike_cut_round_bounds {w : ℚ} (hw : 0 < w) :
    0 ≤ pyRound 1 (max (100 - min (w * 100) 100) 0) ∧
    pyRound 1 (max (100 - min (w * 100) 100) 0) ≤ 100 ∧
    0 ≤ pyRound 1 (min (w * 100) 100) ∧
    pyRound 1 (min (w * 100) 100) ≤ 100 ∧
    999/10 ≤ pyRound 1 (max (100 - min (w * 100) 100) 0) + pyRound 1 (min (w * 100) 100) ∧
    pyRound 1 (max (100 - min (w * 100) 100) 0) + pyRound 1 (min (w * 100) 100) ≤ 1001/10 := by
  have hb0 : 0 ≤ min (w * 100) 100 := le_min (by nlinarith) (by norm_num)
  have hb1 : min (w * 100) 100 ≤ 100 := min_le_right _ _
  have hmax : max (100 - min (w * 100) 100) 0 = 100 - min (w * 100) 100 :=
    max_eq_left (by linarith)
  have h0 : pyRound 1 ((0 : ℚ)) = 0 := pyRound_zero 1
  have ha0 : 0 ≤ pyRound 1 (max (100 - min (w * 100) 100) 0) := by
    have := pyRound_mono (α := ℚ) 1 (le_max_right (100 - min (w * 100) 100) 0)
    rwa [h0] at this
  have ha1 : pyRound 1 (max (100 - min (w * 100) 100) 0) ≤ 100 := by
    have hle : max (100 - min (w * 100) 100) 0 ≤ 100 := by rw [hmax]; linarith
    have := pyRound_mono (α := ℚ) 1 hle
    rwa [pyRound1_hundred] at this
  have hc0 : 0 ≤ pyRound 1 (min (w * 100) 100) := by
    have := pyRound_mono (α := ℚ) 1 hb0
    rwa [h0] at this
  have hc1 : pyRound 1 (min (w * 100) 100) ≤ 100 := by
    have := pyRound_mono (α := ℚ) 1 hb1
    rwa [pyRound1_hundred] at this
  have hale := pyRound_le (α := ℚ) 1 (max (100 - min (w * 100) 100) 0)
  have hage := le_pyRound (α := ℚ) 1 (max (100 - min (w * 100) 100) 0)
  have hcle := pyRound_le (α := ℚ) 1 (min (w * 100) 100)
  have hcge := le_pyRound (α := ℚ) 1 (min (w * 100) 100)
  have hpow : (1 : ℚ) / (2 * 10 ^ (1 : ℕ)) = 1 / 20 := by norm_num
  rw [hpow] at hale hage hcle hcge
  rw [hmax] at hale hage
  refine ⟨ha0, ha1, hc0, hc1, ?_, ?_⟩
  · rw [hmax]
    linarith
  · rw [hmax]
    linarith

/-- Invariants of the rounded probability triple for every possible value of
`probability_of_hike`, including the non-finite values the degenerate-horizon
division can produce. -/
theorem probsOf_round_props (p : PFloat) :
    ∃ a b c : ℚ,
      (Calculations.probsOf p).1.roundN 1 = .fin a ∧
      (Calculations.probsOf p).2.1.roundN 1 = .fin b ∧
      (Calculations.probsOf p).2.2.roundN 1 = .fin c ∧
      0 ≤ a ∧ a ≤ 100 ∧ 0 ≤ b ∧ b ≤ 100 ∧ 0 ≤ c ∧ c ≤ 100 ∧
      (b = 0 ∨ c = 0) ∧ 999/10 ≤ a + b + c ∧ a + b + c ≤ 1001/10 := by
  cases p with
  | fin v =>
    rcases lt_trichotomy 0 v with hv | hv | hv
    · have hgt : (PFloat.fin v).gtZero = true := by simp [PFloat.gtZero, hv]
      have htrip : Calculations.probsOf (.fin v) =
          (.fin (max (100 - min (v * 100) 100) 0), .fin (min (v * 100) 100), .fin 0) := by
        unfold Calculations.probsOf
        rw [hgt]
        show (pyMaxF (pySubF 100 (pyMinF (.fin (v * 100)) 100)) 0,
          pyMinF (.fin (v * 100)) 100, PFloat.fin 0) = _
        rw [pyMinF_fin]
        show (pyMaxF (.fin (100 - min (v * 100) 100)) 0, _, _) = _
        rw [pyMaxF_fin]
      obtain ⟨ha0, ha1, hc0, hc1, hs0, hs1⟩ := hike_cut_round_bounds hv
      refine ⟨pyRound 1 (max (100 - min (v * 100) 100) 0), pyRound 1 (min (v * 100) 100), 0,
        ?_, ?_, ?_, ha0, ha1, hc0, hc1, le_refl 0, by norm_num, Or.inr rfl, ?_, ?_⟩
      · rw [htrip]; rfl
      · rw [htrip]; rfl
      · rw [htrip]
        show PFloat.fin (pyRound 1 ((0 : ℚ))) = _
        rw [pyRound_zero]
      · linarith
      · linarith
    · subst hv
      refine ⟨100, 0, 0, ?_, ?_, ?_, by norm_num, by norm_num, le_refl 0, by norm_num,
        le_refl 0, by norm_num, Or.inl rfl, by norm_num, by norm_num⟩
      all_goals with_unfolding_all decide
    · have hgt : (PFloat.fin v).gtZero = false := by
        simp [PFloat.gtZero]; linarith
      have hlt : (PFloat.fin v).ltZero = true := by simp [PFloat.ltZero, hv]
      have habs : (PFloat.fin v).absF = .fin |v| := rfl
      have hw : 0 < |v| := abs_pos.mpr (ne_of_lt hv)
      have htrip : Calculations.probsOf (.fin v) =
          (.fin (max (100 - min (|v| * 100) 100) 0), .fin 0, .fin (min (|v| * 100) 100)) := by
        unfold Calculations.probsOf
        rw [hgt, hlt]
        show (pyMaxF (pySubF 100 (pyMinF (.fin (|v| * 100)) 100)) 0,
          PFloat.fin 0, pyMinF (.fin (|v| * 100)) 100) = _
        rw [pyMinF_fin]
        show (pyMaxF (.fin (100 - min (|v| * 100) 100)) 0, _, _) = _
        rw [pyMaxF_fin]
      obtain ⟨ha0, ha1, hc0, hc1, hs0, hs1⟩ := hike_cut_round_bounds hw
      refine ⟨pyRound 1 (max (100 - min (|v| * 100) 100) 0), 0, pyRound 1 (min (|v| * 100) 100),
        ?_, ?_, ?_, ha0, ha1, le_refl 0, by norm_num, hc0, hc1, Or.inl rfl, ?_, ?_⟩
      · rw [htrip]; rfl
      · rw [htrip]
        show PFloat.fin (pyRound 1 ((0 : ℚ))) = _
        rw [pyRound_zero]
      · rw [htrip]; rfl
      · linarith
      · linarith
  | inf =>
    refine ⟨0, 100, 0, ?_, ?_, ?_, le_refl 0, by norm_num, by norm_num, by norm_num,
      le_refl 0, by norm_num, Or.inr rfl, by norm_num, by norm_num⟩
    all_goals with_unfolding_all decide
  | ninf =>
    refine ⟨0, 0, 100, ?_, ?_, ?_, le_refl 0, by norm_num, le_refl 0, by norm_num,
      by norm_num, by norm_num, Or.inl rfl, by norm_num, by norm_num⟩
    all_goals with_unfolding_all decide
  | nan =>
    refine ⟨100, 0, 0, ?_, ?_, ?_, by norm_num, by norm_num, le_refl 0, by norm_num,
      le_refl 0, by norm_num, Or.inl rfl, by norm_num, by norm_num⟩
    all_goals with_unfolding_all decide

/-- C7: whenever `calculate_rate_probabilities` returns a record, the three
reported probabilities are finite values in `[0, 100]`, `hike_25bps` and
`cut_25bps` are never simultaneously non-zero, and the three rounded values sum to
a number in `[99.9, 100.1]`. -/
theorem C7_probability_invariants (data : Calculations.DataJson) (now : Date)
    (rec : Calculations.RateProbResult)
    (h : Calculations.calculate_rate_probabilities data now = .ok (some rec)) :
    ∃ a b c : ℚ,
      rec.probabilities.no_change = .fin a ∧
      rec.probabilities.hike_25bps = .fin b ∧
      rec.probabilities.cut_25bps = .fin c ∧
      0 ≤ a ∧ a ≤ 100 ∧ 0 ≤ b ∧ b ≤ 100 ∧ 0 ≤ c ∧ c ≤ 100 ∧
      ¬ (b ≠ 0 ∧ c ≠ 0) ∧ 999/10 ≤ a + b + c ∧ a + b + c ≤ 1001/10 := by
  unfold Calculations.calculate_rate_probabilities at h
  split at h
  · simp at h
  · simp at h
  · split at h
    · simp at h
    · split at h
      · exact Except.noConfusion h
      · split at h
        · exact Except.noConfusion h
        · split at h
          · exact Except.noConfusion h
          · split at h
            · exact Except.noConfusion h
            · simp only [Except.ok.injEq, Option.some.injEq] at h
              subst h
              obtain ⟨a, b, c, h1, h2, h3, hrest⟩ := probsOf_round_props
                ((Calculations.impliedRateOf _ _ _).subC _ |>.divPosC (1 / 4))
              refine ⟨a, b, c, h1, h2, h3, hrest.1, hrest.2.1, hrest.2.2.1, hrest.2.2.2.1,
                hrest.2.2.2.2.1, hrest.2.2.2.2.2.1, ?_, hrest.2.2.2.2.2.2.2.1,
                hrest.2.2.2.2.2.2.2.2⟩
              rcases hrest.2.2.2.2.2.2.1 with hb | hc
              · exact fun hcon => hcon.1 hb
              · exact fun hcon => hcon.2 hc

/-- Scenario-1-style snapshot: three tenors, meeting 60 days out between the 3M and
1Y points. -/
def snapC7 : Calculations.DataJson :=
  { rates := some [⟨("1D"), 1/2⟩, ⟨("3M"), 11/20⟩, ⟨("1Y"), 3/5⟩]
    boj_meetings := some [("2025-03-16")]
    source_date := some ("2025/01/15")
    updated_at := none, jgb_curve := none, credit_data := none }

/-- The record `calculate_rate_probabilities` returns for `snapC7`: implied rate
0.65, hike probability 60%, no-change 40%. -/
def recC7 : Calculations.RateProbResult :=
  { next_meeting_date := ("2025-03-16")
    days_to_meeting := 60
    current_rate := 1/2
    implied_rate := .fin (13/20)
    probabilities := { no_change := .fin 40, hike_25bps := .fin 60, cut_25bps := .fin 0 } }

/-- Witness for C7 at the concrete snapshot `snapC7`. -/
theorem C7_witness :
    ∃ a b c : ℚ,
      recC7.probabilities.no_change = .fin a ∧
      recC7.probabilities.hike_25bps = .fin b ∧
      recC7.probabilities.cut_25bps = .fin c ∧
      0 ≤ a ∧ a ≤ 100 ∧ 0 ≤ b ∧ b ≤ 100 ∧ 0 ≤ c ∧ c ≤ 100 ∧
      ¬ (b ≠ 0 ∧ c ≠ 0) ∧ 999/10 ≤ a + b + c ∧ a + b + c ≤ 1001/10 :=
  C7_probability_invariants snapC7 dNow recC7 (by with_unfolding_all decide)

end ClaimC7

section ClaimC6

theorem pdPct_mono {lam : ℚ} (h0 : 0 ≤ lam) {t1 t2 : ℕ} (ht : t1 ≤ t2) :
    Credit.pdPct lam t1 ≤ Credit.pdPct lam t2 := by
  unfold Credit.pdPct
  apply pyRound_mono
  have hc : (0 : ℝ) ≤ (lam : ℝ) := by exact_mod_cast h0
  have htr : (t1 : ℝ) ≤ (t2 : ℝ) := by exact_mod_cast ht
  have hexp : Real.exp (-((lam : ℝ) * (t2 : ℝ))) ≤ Real.exp (-((lam : ℝ) * (t1 : ℝ))) := by
    apply Real.exp_le_exp.mpr
    have := mul_le_mul_of_nonneg_left htr hc
    linarith
  linarith

theorem pdPct_zero (t : ℕ) : Credit.pdPct 0 t = 0 := by
  unfold Credit.pdPct
  rw [show -(((0 : ℚ) : ℝ) * (t : ℝ)) = 0 by norm_num, Real.exp_zero,
    show ((1 : ℝ) - 1) * 100 = 0 by norm_num]
  exact pyRound_zero 2

theorem mem_insDesc (r : Credit.IssuerRec) (l : List Credit.IssuerRec) (a : Credit.IssuerRec) :
    a ∈ Credit.insDesc r l ↔ a = r ∨ a ∈ l := by
  induction l with
  | nil => simp [Credit.insDesc]
  | cons x xs ih =>
    by_cases h : r.pd_5y < x.pd_5y
    · simp only [Credit.insDesc, if_pos h, List.mem_cons, ih]
      try tauto
    · simp only [Credit.insDesc, if_neg h, List.mem_cons]
      try tauto

theorem mem_sortPd5Desc (l : List Credit.IssuerRec) (a : Credit.IssuerRec) :
    a ∈ Credit.sortPd5Desc l ↔ a ∈ l := by
  induction l with
  | nil => simp [Credit.sortPd5Desc]
  | cons x xs ih =>
    unfold Credit.sortPd5Desc at *
    rw [List.foldr_cons, mem_insDesc, ih, List.mem_cons]

theorem issuerStats_lam (rows : List Credit.BondRow) :
    ∀ s ∈ Credit.issuerStats rows,
      s.lam = max (s.avg_spread_dec / Credit.LGD) 0 ∧ 0 ≤ s.lam := by
  intro s hs
  simp only [Credit.issuerStats] at hs
  obtain ⟨k, _, rfl⟩ := List.mem_map.mp hs
  exact ⟨rfl, le_max_right _ _⟩

/-- C6: every record `calculate_default_probabilities` emits comes from an issuer
aggregate whose hazard rate is `max(mean_spread_decimal / LGD, 0)` with
`LGD = 1 - 0.10 = 0.9`; its reported default probabilities are non-decreasing in
horizon, and a non-positive average spread forces all four reported PDs to 0.00. -/
theorem C6_hazard_rate_and_pd_monotonicity (rows : List Credit.BondRow)
    (rec : Credit.IssuerRec) (h : rec ∈ Credit.calculate_default_probabilities rows) :
    ∃ s, s ∈ Credit.issuerStats rows ∧ rec = Credit.mkIssuerRec s ∧
      s.lam = max (s.avg_spread_dec / Credit.LGD) 0 ∧
      rec.pd_1y ≤ rec.pd_3y ∧ rec.pd_3y ≤ rec.pd_5y ∧ rec.pd_5y ≤ rec.pd_10y ∧
      (s.avg_spread_dec ≤ 0 →
        rec.pd_1y = 0 ∧ rec.pd_3y = 0 ∧ rec.pd_5y = 0 ∧ rec.pd_10y = 0) := by
  unfold Credit.calculate_default_probabilities at h
  split at h
  · simp at h
  · split at h
    · simp at h
    · split at h
      · simp at h
      · rw [mem_sortPd5Desc] at h
        obtain ⟨s, hs, rfl⟩ := List.mem_map.mp h
        obtain ⟨hlam, hlam0⟩ := issuerStats_lam rows s hs
        refine ⟨s, hs, rfl, hlam, pdPct_mono hlam0 (by norm_num),
          pdPct_mono hlam0 (by norm_num), pdPct_mono hlam0 (by norm_num), ?_⟩
        intro hneg
        have hL : (0 : ℚ) < Credit.LGD := by
          norm_num [Credit.LGD, Credit.RECOVERY_RATE]
        have hdiv : s.avg_spread_dec / Credit.LGD ≤ 0 :=
          div_nonpos_iff.mpr (Or.inr ⟨hneg, hL.le⟩)
        have hlz : s.lam = 0 := by
          rw [hlam]
          exact max_eq_right hdiv
        refine ⟨?_, ?_, ?_, ?_⟩
        all_goals
          show Credit.pdPct s.lam _ = 0
          rw [hlz]
          exact pdPct_zero _

/-- Two government bonds (1 and 2 years, yields 1 and 1.5) plus one corporate bond
whose maturity sits exactly on the first curve knot and whose yield equals the
curve there, so its spread is 0. -/
def rowsC6 : List Credit.BondRow :=
  [ { trade_date := ("20240101"), category := 10, issue_code := ("G1"), name := ("国債A"),
      maturity := ("20250101"), coupon := 0, yld := some 1 },
    { trade_date := ("20240101"), category := 10, issue_code := ("G2"), name := ("国債B"),
      maturity := ("20260101"), coupon := 0, yld := some (3/2) },
    { trade_date := ("20240101"), category := 40, issue_code := ("C1"), name := ("ACME 5"),
      maturity := ("20250101"), coupon := 0, yld := some 1 } ]

/-- The single issuer aggregate of `rowsC6`: one bond, zero average spread, zero
hazard rate. -/
def statC6 : Credit.IssuerStat :=
  { issuer := ("ACME"), n_bonds := 1, avg_spread_dec := 0, avg_years := 366/365, lam := 0 }

/-- Witness for C6 at the concrete input `rowsC6` (zero spread, so all PDs 0.00). -/
theorem C6_witness :
    ∃ s, s ∈ Credit.issuerStats rowsC6 ∧ Credit.mkIssuerRec statC6 = Credit.mkIssuerRec s ∧
      s.lam = max (s.avg_spread_dec / Credit.LGD) 0 ∧
      (Credit.mkIssuerRec statC6).pd_1y ≤ (Credit.mkIssuerRec statC6).pd_3y ∧
      (Credit.mkIssuerRec statC6).pd_3y ≤ (Credit.mkIssuerRec statC6).pd_5y ∧
      (Credit.mkIssuerRec statC6).pd_5y ≤ (Credit.mkIssuerRec statC6).pd_10y ∧
      (s.avg_spread_dec ≤ 0 →
        (Credit.mkIssuerRec statC6).pd_1y = 0 ∧ (Credit.mkIssuerRec statC6).pd_3y = 0 ∧
        (Credit.mkIssuerRec statC6).pd_5y = 0 ∧ (Credit.mkIssuerRec statC6).pd_10y = 0) :=
  C6_hazard_rate_and_pd_monotonicity rowsC6 (Credit.mkIssuerRec statC6) (by
    have he : Credit.calculate_default_probabilities rowsC6 = [Credit.mkIssuerRec statC6] := by
      with_unfolding_all rfl
    rw [he]
    exact List.mem_cons_self _ _)

end ClaimC6
